import Mathlib

/-!
# Import-scenario tool: verification of the cost & tax computation engine

Shallow embedding of the calculation logic of the import-cost scenario
simulator (revisions `Import_Scenario_tool_DEV.py`, `import_scenario_tool_PRD.py`,
`Import_Scenario_tool_v2.py`, `Import_Scenario_tool_QAS.py`).

Modelling conventions:
* Python floats are modelled as exact rationals (`ℚ`); the claims are about
  the arithmetic formulas, not binary rounding.
* A Python dict with string keys is modelled as an association list
  `List (String × _)`; `dict.get(k, 0)` becomes `lookupQ`.
* A cost-field configuration value is either a bare number (legacy format)
  or a dict of optional keys; `conf.get(key, default)` becomes
  `Option.getD`.
* Python's `str.strip()` / `str.lower()` are modelled character-wise
  (`pyStrip` / `pyLower`); they agree on the ASCII data the program
  handles.
-/

namespace ImportScenario

/-- Python `s.lower()`: lowercase each character. -/
def pyLower (s : String) : String :=
  String.mk (s.data.map Char.toLower)

/-- Python `s.strip()`: drop leading and trailing whitespace. -/
def pyStrip (s : String) : String :=
  String.mk (((s.data.dropWhile Char.isWhitespace).reverse.dropWhile
    Char.isWhitespace).reverse)

/-- `m.get(k, 0)` on a Python dict with numeric values, modelled on an
association list: the value of the first matching key, else `0`. -/
def lookupQ (m : List (String × ℚ)) (k : String) : ℚ :=
  match m.find? (fun p => p.1 == k) with
  | some p => p.2
  | none => 0

/-- A structured cost-field rule: the Python dict
`{"type": …, "value": …, "base": …, "rate": …, "rate_by_occupancy": …}`
where every key may be absent (`none`). -/
structure RuleDict where
  type? : Option String
  value? : Option ℚ
  base? : Option String
  rate? : Option ℚ
  rate_by_occupancy? : Option Bool
deriving DecidableEq

/-- A scenario field configuration value: either a bare number
(`not isinstance(conf, dict)`) or a structured rule dict. -/
inductive FieldConf
| bare (v : ℚ)
| dict (d : RuleDict)
deriving DecidableEq

/-- Loop body of `calculate_total_cost_extended`
(`Import_Scenario_tool_DEV.py` lines 244–263, identically
`import_scenario_tool_PRD.py` lines 67–88): the contribution of one
configured field to the scenario's extra cost. -/
def fieldCost (base_values : List (String × ℚ)) (taxa_cambio occupancy_fraction : ℚ) :
    FieldConf → ℚ
| .bare v => v
| .dict conf =>
  let field_type := conf.type?.getD "fixed"
  let rate_by_occupancy := conf.rate_by_occupancy?.getD false
  let cost_value :=
    if field_type = "fixed" then conf.value?.getD 0
    else if field_type = "percentage" then
      let base := conf.base?.getD ""
      let rate := conf.rate?.getD 0
      let base_val := lookupQ base_values base
      let base_val :=
        if pyLower (pyStrip base) ∈ ["valor fob", "frete internacional"] then
          base_val * taxa_cambio
        else base_val
      base_val * rate
    else 0
  if rate_by_occupancy then cost_value * occupancy_fraction else cost_value

/-- `calculate_total_cost_extended(config, base_values, taxa_cambio,
occupancy_fraction)` (`Import_Scenario_tool_DEV.py` lines 242–264,
identically `import_scenario_tool_PRD.py` lines 58–90): accumulates each
field's cost into `extra`, then returns `base_values.get("Valor CIF", 0) +
extra`. -/
def calculate_total_cost_extended (config : List (String × FieldConf))
    (base_values : List (String × ℚ)) (taxa_cambio occupancy_fraction : ℚ) : ℚ :=
  let extra := config.foldl
    (fun acc p => acc + fieldCost base_values taxa_cambio occupancy_fraction p.2) 0
  lookupQ base_values "Valor CIF" + extra

/-- The CIF computation of the DEV revision
(`Import_Scenario_tool_DEV.py` lines 796–804, identically
`import_scenario_tool_PRD.py` lines 480–492): returns
`(seguro, valor_cif)`. `0.0015` is the literal insurance rate. -/
def valor_cif_calc (valor_fob_usd frete_internacional_usd
    percentual_ocupacao_conteiner taxa_cambio : ℚ) : ℚ × ℚ :=
  let occupancy_fraction := percentual_ocupacao_conteiner / 100
  let frete_internacional_usd_rateado := frete_internacional_usd * occupancy_fraction
  let valor_cif_base := (valor_fob_usd + frete_internacional_usd_rateado) * taxa_cambio
  let seguro := (15 / 10000 : ℚ) * (valor_fob_usd * taxa_cambio)
  (seguro, valor_cif_base + seguro)

/-- One product tax entry `{"base": …, "rate": …}` with possibly-absent
keys, as read by `calculate_product_taxes`. -/
structure TaxInfo where
  base? : Option String
  rate? : Option ℚ
deriving DecidableEq

/-- A product's four tax rules. `none` models a key that is absent or
falsy (`if tax_info:` in the source treats both the same way). -/
structure Product where
  imposto_importacao : Option TaxInfo
  ipi : Option TaxInfo
  pis : Option TaxInfo
  cofins : Option TaxInfo
deriving DecidableEq

/-- Body of the loop of `calculate_product_taxes` for one tax kind
(`Import_Scenario_tool_DEV.py` lines 272–279): `base_values.get(base, 0) *
tax_info.get("rate", 0)` when a rule is configured, else `0`. -/
def taxAmount (base_values : List (String × ℚ)) : Option TaxInfo → ℚ
| some tax_info => lookupQ base_values (tax_info.base?.getD "") * tax_info.rate?.getD 0
| none => 0

/-- `calculate_product_taxes(product, base_values, taxa_cambio,
occupancy_fraction)` (`Import_Scenario_tool_DEV.py` lines 269–280).  The
`taxa_cambio` and `occupancy_fraction` parameters are received but, as in
the source, never used. -/
def calculate_product_taxes (product : Product) (base_values : List (String × ℚ))
    (taxa_cambio occupancy_fraction : ℚ) : List (String × ℚ) :=
  [("imposto_importacao", taxAmount base_values product.imposto_importacao),
   ("ipi", taxAmount base_values product.ipi),
   ("pis", taxAmount base_values product.pis),
   ("cofins", taxAmount base_values product.cofins)]

/-- `total_product_taxes` as computed at `Import_Scenario_tool_DEV.py`
lines 812–816: `sum(calculate_product_taxes(...).values())` when a product
is selected, else `0`. -/
def total_product_taxes (product : Option Product) (base_values : List (String × ℚ))
    (taxa_cambio occupancy_fraction : ℚ) : ℚ :=
  match product with
  | some p => ((calculate_product_taxes p base_values taxa_cambio occupancy_fraction).map
      Prod.snd).sum
  | none => 0

/-- The `tem_valor` inclusion test of the ranking loop
(`Import_Scenario_tool_DEV.py` lines 823–837, identically lines 994–1008):
a scenario has a value when some field has a positive fixed value, a
positive converted percentage amount, or a positive bare number.  The
occupancy fraction is not consulted. -/
def tem_valor (base_values : List (String × ℚ)) (taxa_cambio : ℚ)
    (config : List (String × FieldConf)) : Bool :=
  config.any (fun p =>
    match p.2 with
    | .dict conf =>
      let field_type := conf.type?.getD "fixed"
      if field_type = "fixed" then decide (0 < conf.value?.getD 0)
      else if field_type = "percentage" then
        let base_name := conf.base?.getD ""
        let base_val := lookupQ base_values base_name
        let base_val :=
          if pyLower (pyStrip base_name) ∈ ["valor fob", "frete internacional"] then
            base_val * taxa_cambio
          else base_val
        decide (0 < base_val * conf.rate?.getD 0)
      else false
    | .bare v => decide (0 < v))

/-- The single-branch scenario-collection loop of the simulator
(`Import_Scenario_tool_DEV.py` lines 819–842): iterate the branch's
scenarios in insertion order, skip a scenario named `teste`
(case-insensitively) and any scenario failing `tem_valor`, and record the
final cost `calculate_total_cost_extended(...) + taxas_frete_brl_rateada +
total_product_taxes` for each kept scenario.  The displayed ranking is
`sort_values` applied to exactly these rows, so a scenario appears in the
output iff it appears here. -/
def costsOf (data_filial : List (String × List (String × FieldConf)))
    (base_values : List (String × ℚ))
    (taxa_cambio occupancy_fraction taxas_frete_brl_rateada total_taxes : ℚ) :
    List (String × ℚ) :=
  data_filial.filterMap (fun p =>
    if pyLower p.1 = "teste" then none
    else if tem_valor base_values taxa_cambio p.2 then
      some (p.1,
        calculate_total_cost_extended p.2 base_values taxa_cambio occupancy_fraction
          + taxas_frete_brl_rateada + total_taxes)
    else none)

/-- State of a JSON file on disk, as seen by the loaders: absent, present
with only whitespace, present but not valid JSON, or present with a parsed
value. -/
inductive FileState (α : Type)
| missing
| blank
| malformed
| parsed (v : α)
deriving DecidableEq

/-- `load_data()` (`Import_Scenario_tool_DEV.py` lines 188–193,
identically `import_scenario_tool_PRD.py` lines 35–40): if the file
exists, `json.load` it with no exception handler — `json.load` raises
`JSONDecodeError` on blank or malformed content; otherwise return `{}`. -/
def load_data (file : FileState (List (String × List (String × FieldConf)))) :
    Except String (List (String × List (String × FieldConf))) :=
  match file with
  | .missing => .ok []
  | .blank => .error "JSONDecodeError"
  | .malformed => .error "JSONDecodeError"
  | .parsed v => .ok v

/-- `load_products()` (`Import_Scenario_tool_DEV.py` lines 222–233): a
missing file yields `{}`; whitespace-only content yields `{}` before
parsing; a `json.JSONDecodeError` is caught and yields `{}`; otherwise the
parsed value is returned. -/
def load_products (file : FileState (List (String × Product))) :
    Except String (List (String × Product)) :=
  match file with
  | .missing => .ok []
  | .blank => .ok []
  | .malformed => .ok []
  | .parsed v => .ok v

/-- Whether the first list is an initial segment of the second. -/
def startsWith : List Char → List Char → Bool
| [], _ => true
| _ :: _, [] => false
| a :: as, b :: bs => a = b && startsWith as bs

/-- Python's `sub in s` substring test, scanning left to right. -/
def containsSub (sub : List Char) : List Char → Bool
| [] => sub.isEmpty
| c :: rest => startsWith sub (c :: rest) || containsSub sub rest

/-- `calculate_total_cost(data, scenario)` of the v2/QAS revisions
(`Import_Scenario_tool_v2.py` lines 21–34, identically
`Import_Scenario_tool_QAS.py` lines 23–36): an ICMS rate of `0.18` applies
when the scenario name contains the substring `"DI"` or `"DDC"`, and the
returned pair is (total including ICMS, ICMS amount). -/
def calculate_total_cost (data : List (String × ℚ)) (scenario : String) : ℚ × ℚ :=
  let icms_rate : ℚ :=
    if containsSub "DI".toList scenario.toList
        || containsSub "DDC".toList scenario.toList then 18 / 100 else 0
  let custo_icms := lookupQ data "Valor CIF" * icms_rate
  let total_cost := lookupQ data "Valor CIF"
    + lookupQ data "Frete rodoviário"
    + lookupQ data "Armazenagem"
    + lookupQ data "Taxa MAPA"
    + lookupQ data "Taxas Porto Seco"
    + lookupQ data "Desova EAD"
    + lookupQ data "Taxa cross docking"
    + lookupQ data "Taxa DDC"
    + custo_icms
  (total_cost, custo_icms)

/-- Round a rational to the nearest integer, ties to the even integer —
the rounding used by Python's fixed-point float formatting. -/
def roundHalfEven (x : ℚ) : ℤ :=
  let f := ⌊x⌋
  let r := x - (f : ℚ)
  if r < 1 / 2 then f
  else if 1 / 2 < r then f + 1
  else if f % 2 = 0 then f else f + 1

/-- The decimal digit characters of `n`, least significant first; `0` is
rendered as the single digit `'0'`. -/
def digitCharsRev (n : ℕ) : List Char :=
  if n = 0 then ['0'] else (Nat.digits 10 n).map Nat.digitChar

/-- Split a least-significant-first digit list into groups of three,
least significant group first; the final (most significant) group may be
shorter. -/
def groupsOfThree : List Char → List (List Char)
| a :: b :: c :: rest@(_ :: _) => [a, b, c] :: groupsOfThree rest
| l => [l]

/-- Concatenate groups with a separator between consecutive groups. -/
def joinSep (sep : List Char) : List (List Char) → List Char
| [] => []
| [g] => g
| g :: gs => g ++ sep ++ joinSep sep gs

/-- The thousands-grouped decimal rendering of `n`, most significant digit
first, with `sep` between three-digit groups. -/
def groupedNat (sep : List Char) (n : ℕ) : List Char :=
  joinSep sep ((groupsOfThree (digitCharsRev n)).reverse.map List.reverse)

/-- Two-digit zero-padded rendering of `m < 100`. -/
def twoDigits (m : ℕ) : List Char :=
  [Nat.digitChar (m / 10), Nat.digitChar (m % 10)]

/-- `"{:,.2f}".format(x)`: the sign of `x`, then the integer part of
`|x|` rounded to hundredths with `","` as thousands separator, then `"."`
and the two fraction digits.  (Python rounds the decimal expansion half to
even; the float value is modelled by the exact rational `x`.) -/
def pyFormatUS (x : ℚ) : List Char :=
  let h := (roundHalfEven (100 * x)).natAbs
  (if x < 0 then ['-'] else []) ++ groupedNat [','] (h / 100) ++ ['.'] ++ twoDigits (h % 100)

/-- Python `s.replace(",", "TEMP")`: each comma becomes the four letters
`TEMP`. -/
def replaceCommaTEMP (l : List Char) : List Char :=
  l.flatMap (fun c => if c = ',' then ['T', 'E', 'M', 'P'] else [c])

/-- Python `s.replace(".", ",")`. -/
def replaceDotComma (l : List Char) : List Char :=
  l.map (fun c => if c = '.' then ',' else c)

/-- Python `s.replace("TEMP", ".")`: leftmost non-overlapping occurrences
of `TEMP` each become a dot. -/
def replaceTEMPDot : List Char → List Char
| [] => []
| 'T' :: 'E' :: 'M' :: 'P' :: rest => '.' :: replaceTEMPDot rest
| c :: rest => c :: replaceTEMPDot rest

/-- A Python value passed to (or returned by) `format_brl`: `num q` is any
value that `float()` converts to a number (an int, a float, or a numeric
string), modelled by the rational it denotes; `str s` is any value on
which `float()` raises, rendered by `s`. -/
inductive PyVal
| num (q : ℚ)
| str (s : String)
deriving DecidableEq

/-- The `try` body of `format_brl`: `float(x)` followed by the
format-and-replace chain; `float()` raises on a non-numeric value. -/
def format_brl_body : PyVal → Except Unit String
| .num q =>
  .ok (String.mk (replaceTEMPDot (replaceDotComma (replaceCommaTEMP (pyFormatUS q)))))
| .str _ => .error ()

/-- `format_brl(x)` (`Import_Scenario_tool_DEV.py` lines 155–161,
identically `import_scenario_tool_PRD.py` lines 10–16): the formatted
string, or the argument unchanged when the body raises (`except: return
x`). -/
def format_brl (x : PyVal) : PyVal :=
  match format_brl_body x with
  | .ok s => .str s
  | .error _ => x

/-- Specification rendering (§6 of the spec): the amount with two decimal
places, `"."` as the thousands separator and `","` as the decimal
separator.  Stated from the spec's words, to be compared with the
source-derived `format_brl`. -/
def brlRender (x : ℚ) : List Char :=
  let h := (roundHalfEven (100 * x)).natAbs
  (if x < 0 then ['-'] else []) ++ groupedNat ['.'] (h / 100) ++ [','] ++ twoDigits (h % 100)

/-- A character that is neither a comma, a dot, nor a `'T'`: the
separator-rewriting chain of `format_brl` leaves such characters
untouched.  All digit characters and `'-'` qualify. -/
def goodChar (c : Char) : Prop := c ≠ ',' ∧ c ≠ '.' ∧ c ≠ 'T'

/-! ## Helper lemmas -/

theorem foldl_add_map {α : Type} (f : α → ℚ) (l : List α) (a : ℚ) :
    l.foldl (fun acc p => acc + f p) a = a + (l.map f).sum := by
  induction l generalizing a with
  | nil => simp
  | cons x xs ih => simp [ih, add_assoc]

theorem digitChar_good {d : ℕ} (hd : d < 10) : goodChar (Nat.digitChar d) := by
  interval_cases d <;> exact ⟨by decide, by decide, by decide⟩

theorem digitCharsRev_good {n : ℕ} {c : Char} (hc : c ∈ digitCharsRev n) : goodChar c := by
  rw [digitCharsRev] at hc
  by_cases h : n = 0
  · simp [h] at hc
    subst hc
    exact ⟨by decide, by decide, by decide⟩
  · simp [h] at hc
    rcases hc with ⟨d, hd, rfl⟩
    exact digitChar_good (Nat.digits_lt_base (by norm_num) hd)

theorem mem_groupsOfThree {l g : List Char} (hg : g ∈ groupsOfThree l) :
    ∀ c ∈ g, c ∈ l := by
  induction l using groupsOfThree.induct with
  | case1 a b c head tail ih =>
    rw [groupsOfThree] at hg
    rcases List.mem_cons.mp hg with rfl | hg'
    · intro x hx
      simp at hx
      rcases hx with rfl | rfl | rfl <;> simp
    · intro x hx
      have := ih hg' x hx
      simp [List.mem_cons] at this ⊢
      tauto
  | case2 l hl =>
    rcases l with _ | ⟨a, _ | ⟨b, _ | ⟨c, _ | ⟨d, tl⟩⟩⟩⟩
    · simp [groupsOfThree] at hg
      simp [hg]
    · simp [groupsOfThree] at hg
      simp [hg]
    · simp [groupsOfThree] at hg
      simp [hg]
    · simp [groupsOfThree] at hg
      simp [hg]
    · exact absurd rfl (hl a b c d tl)

theorem mem_joinSep {sep : List Char} {gs : List (List Char)} {c : Char}
    (hc : c ∈ joinSep sep gs) : (∃ g ∈ gs, c ∈ g) ∨ c ∈ sep := by
  induction gs with
  | nil => simp [joinSep] at hc
  | cons g gs ih =>
    cases gs with
    | nil =>
      rw [joinSep] at hc
      exact Or.inl ⟨g, by simp, hc⟩
    | cons g2 gs2 =>
      have heq : joinSep sep (g :: g2 :: gs2) = g ++ sep ++ joinSep sep (g2 :: gs2) := rfl
      rw [heq] at hc
      simp only [List.mem_append] at hc
      rcases hc with (hc | hc) | hc
      · exact Or.inl ⟨g, by simp, hc⟩
      · exact Or.inr hc
      · rcases ih hc with ⟨g', hg', hcg⟩ | hs
        · exact Or.inl ⟨g', by simp [hg'], hcg⟩
        · exact Or.inr hs

theorem twoDigits_good {m : ℕ} (hm : m < 100) : ∀ c ∈ twoDigits m, goodChar c := by
  intro c hc
  rw [twoDigits] at hc
  simp at hc
  rcases hc with rfl | rfl
  · exact digitChar_good (Nat.div_lt_of_lt_mul (by omega))
  · exact digitChar_good (Nat.mod_lt _ (by norm_num))

theorem replaceCommaTEMP_append (l r : List Char) :
    replaceCommaTEMP (l ++ r) = replaceCommaTEMP l ++ replaceCommaTEMP r := by
  simp [replaceCommaTEMP]

theorem replaceCommaTEMP_id {l : List Char} (h : ∀ c ∈ l, c ≠ ',') :
    replaceCommaTEMP l = l := by
  induction l with
  | nil => rfl
  | cons c cs ih =>
    rw [replaceCommaTEMP] at *
    simp only [List.flatMap_cons]
    rw [if_neg (h c (by simp)), ih (fun x hx => h x (by simp [hx]))]
    rfl

theorem replaceDotComma_append (l r : List Char) :
    replaceDotComma (l ++ r) = replaceDotComma l ++ replaceDotComma r := by
  simp [replaceDotComma]

theorem replaceDotComma_id {l : List Char} (h : ∀ c ∈ l, c ≠ '.') :
    replaceDotComma l = l := by
  induction l with
  | nil => rfl
  | cons c cs ih =>
    rw [replaceDotComma] at *
    simp only [List.map_cons]
    rw [if_neg (h c (by simp)), ih (fun x hx => h x (by simp [hx]))]

theorem replaceTEMPDot_cons_ne {c : Char} {xs : List Char} (h : c ≠ 'T') :
    replaceTEMPDot (c :: xs) = c :: replaceTEMPDot xs := by
  rw [replaceTEMPDot.eq_def]
  split
  · simp_all
  · simp_all
  · simp_all

theorem replaceTEMPDot_append_noT {l : List Char} (r : List Char)
    (h : ∀ c ∈ l, c ≠ 'T') :
    replaceTEMPDot (l ++ r) = l ++ replaceTEMPDot r := by
  induction l with
  | nil => rfl
  | cons c cs ih =>
    rw [List.cons_append, replaceTEMPDot_cons_ne (h c (by simp)),
      ih (fun x hx => h x (by simp [hx]))]
    simp

theorem replaceTEMPDot_id {l : List Char} (h : ∀ c ∈ l, c ≠ 'T') :
    replaceTEMPDot l = l := by
  have h0 : replaceTEMPDot ([] : List Char) = [] := rfl
  have := replaceTEMPDot_append_noT (l := l) [] h
  simpa [h0] using this

theorem rCT_joinSep {gs : List (List Char)} (h : ∀ g ∈ gs, ∀ c ∈ g, c ≠ ',') :
    replaceCommaTEMP (joinSep [','] gs) = joinSep ['T', 'E', 'M', 'P'] gs := by
  induction gs with
  | nil => rfl
  | cons g gs ih =>
    cases gs with
    | nil => exact replaceCommaTEMP_id (h g (by simp))
    | cons g2 gs2 =>
      have heq : joinSep [','] (g :: g2 :: gs2) =
          g ++ [','] ++ joinSep [','] (g2 :: gs2) := rfl
      have heq2 : joinSep ['T', 'E', 'M', 'P'] (g :: g2 :: gs2) =
          g ++ ['T', 'E', 'M', 'P'] ++ joinSep ['T', 'E', 'M', 'P'] (g2 :: gs2) := rfl
      rw [heq, heq2, replaceCommaTEMP_append, replaceCommaTEMP_append,
        replaceCommaTEMP_id (h g (by simp)),
        ih (fun g' hg' => h g' (by simp [hg']))]
      rfl

theorem rTD_joinSep {gs : List (List Char)} (h : ∀ g ∈ gs, ∀ c ∈ g, c ≠ 'T')
    (r : List Char) :
    replaceTEMPDot (joinSep ['T', 'E', 'M', 'P'] gs ++ r) =
      joinSep ['.'] gs ++ replaceTEMPDot r := by
  induction gs with
  | nil => rfl
  | cons g gs ih =>
    cases gs with
    | nil => exact replaceTEMPDot_append_noT r (h g (by simp))
    | cons g2 gs2 =>
      have heq : joinSep ['T', 'E', 'M', 'P'] (g :: g2 :: gs2) =
          g ++ ['T', 'E', 'M', 'P'] ++ joinSep ['T', 'E', 'M', 'P'] (g2 :: gs2) := rfl
      have heq2 : joinSep ['.'] (g :: g2 :: gs2) =
          g ++ ['.'] ++ joinSep ['.'] (g2 :: gs2) := rfl
      rw [heq, heq2]
      rw [List.append_assoc, List.append_assoc, List.append_assoc, List.append_assoc]
      rw [replaceTEMPDot_append_noT _ (h g (by simp))]
      have : replaceTEMPDot ('T' :: 'E' :: 'M' :: 'P' ::
          (joinSep ['T', 'E', 'M', 'P'] (g2 :: gs2) ++ r)) =
          '.' :: replaceTEMPDot (joinSep ['T', 'E', 'M', 'P'] (g2 :: gs2) ++ r) := rfl
      simp only [List.cons_append, List.nil_append] at this ⊢
      rw [this, ih (fun g' hg' => h g' (by simp [hg']))]

theorem chain_general (S : List Char) (gs : List (List Char)) (F : List Char)
    (hS : ∀ c ∈ S, goodChar c) (hgs : ∀ g ∈ gs, ∀ c ∈ g, goodChar c)
    (hF : ∀ c ∈ F, goodChar c) :
    replaceTEMPDot (replaceDotComma (replaceCommaTEMP
        (S ++ joinSep [','] gs ++ ['.'] ++ F))) =
      S ++ joinSep ['.'] gs ++ [','] ++ F := by
  have hSc : ∀ c ∈ S, c ≠ ',' := fun c hc => (hS c hc).1
  have hSd : ∀ c ∈ S, c ≠ '.' := fun c hc => (hS c hc).2.1
  have hSt : ∀ c ∈ S, c ≠ 'T' := fun c hc => (hS c hc).2.2
  have hFc : ∀ c ∈ F, c ≠ ',' := fun c hc => (hF c hc).1
  have hFd : ∀ c ∈ F, c ≠ '.' := fun c hc => (hF c hc).2.1
  have hgc : ∀ g ∈ gs, ∀ c ∈ g, c ≠ ',' := fun g hg c hc => (hgs g hg c hc).1
  have hgt : ∀ g ∈ gs, ∀ c ∈ g, c ≠ 'T' := fun g hg c hc => (hgs g hg c hc).2.2
  have hJTd : ∀ c ∈ joinSep ['T', 'E', 'M', 'P'] gs, c ≠ '.' := by
    intro c hc
    rcases mem_joinSep hc with ⟨g, hg, hcg⟩ | hsep
    · exact (hgs g hg c hcg).2.1
    · simp at hsep
      rcases hsep with rfl | rfl | rfl | rfl <;> decide
  have hdot : ∀ c ∈ ['.'], c ≠ ',' := by decide
  have hcomTF : ∀ c ∈ ',' :: F, c ≠ 'T' := by
    intro c hc
    rcases List.mem_cons.mp hc with rfl | hc
    · decide
    · exact (hF c hc).2.2
  rw [replaceCommaTEMP_append, replaceCommaTEMP_append, replaceCommaTEMP_append,
    replaceCommaTEMP_id hSc, rCT_joinSep hgc, replaceCommaTEMP_id hdot,
    replaceCommaTEMP_id hFc]
  rw [replaceDotComma_append, replaceDotComma_append, replaceDotComma_append,
    replaceDotComma_id hSd, replaceDotComma_id hJTd, replaceDotComma_id hFd]
  have hrdc : replaceDotComma ['.'] = [','] := by simp [replaceDotComma]
  rw [hrdc]
  simp only [List.append_assoc]
  rw [replaceTEMPDot_append_noT _ hSt, rTD_joinSep hgt]
  have : (',' :: F : List Char) = [','] ++ F := rfl
  rw [← this, replaceTEMPDot_id hcomTF]

theorem sign_good (x : ℚ) :
    ∀ c ∈ (if x < 0 then ['-'] else ([] : List Char)), goodChar c := by
  intro c hc
  split at hc
  · simp at hc
    subst hc
    exact ⟨by decide, by decide, by decide⟩
  · simp at hc

theorem groups_good (n : ℕ) :
    ∀ g ∈ (groupsOfThree (digitCharsRev n)).reverse.map List.reverse,
      ∀ c ∈ g, goodChar c := by
  intro g hg c hc
  simp only [List.mem_map, List.mem_reverse] at hg
  rcases hg with ⟨g', hg', rfl⟩
  exact digitCharsRev_good (mem_groupsOfThree hg' c (List.mem_reverse.mp hc))

theorem chain_renders (x : ℚ) :
    replaceTEMPDot (replaceDotComma (replaceCommaTEMP (pyFormatUS x))) = brlRender x := by
  rw [pyFormatUS, brlRender, groupedNat, groupedNat]
  exact chain_general _ _ _ (sign_good x) (groups_good _)
    (twoDigits_good (Nat.mod_lt _ (by norm_num)))

theorem tem_valor_iff (bv : List (String × ℚ)) (taxa : ℚ)
    (config : List (String × FieldConf)) :
    tem_valor bv taxa config = true ↔ ∃ p ∈ config, 0 < fieldCost bv taxa 1 p.2 := by
  rw [tem_valor, List.any_eq_true]
  constructor
  · rintro ⟨p, hp, hv⟩
    refine ⟨p, hp, ?_⟩
    rcases p with ⟨n, cfg⟩
    cases cfg with
    | bare v => simpa [fieldCost] using hv
    | dict conf =>
      by_cases hf : conf.type?.getD "fixed" = "fixed"
      · simp [hf] at hv
        simp [fieldCost, hf]
        rcases h : conf.rate_by_occupancy?.getD false <;> simpa [h] using hv
      · by_cases hpe : conf.type?.getD "fixed" = "percentage"
        · simp [hf, hpe] at hv
          simp [fieldCost, hf, hpe]
          rcases h : conf.rate_by_occupancy?.getD false <;> simpa [h] using hv
        · simp [hf, hpe] at hv
  · rintro ⟨p, hp, hv⟩
    refine ⟨p, hp, ?_⟩
    rcases p with ⟨n, cfg⟩
    cases cfg with
    | bare v => simpa [fieldCost] using hv
    | dict conf =>
      by_cases hf : conf.type?.getD "fixed" = "fixed"
      · simp [fieldCost, hf] at hv
        simp [hf]
        rcases h : conf.rate_by_occupancy?.getD false <;> simpa [h] using hv
      · by_cases hpe : conf.type?.getD "fixed" = "percentage"
        · simp [fieldCost, hf, hpe] at hv
          simp [hf, hpe]
          rcases h : conf.rate_by_occupancy?.getD false <;> simpa [h] using hv
        · simp [fieldCost, hf, hpe] at hv

/-! ## Claim theorems -/

/-- C1: in `calculate_total_cost_extended`, a percentage rule's base value
is multiplied by the exchange rate exactly when the stripped, lowercased
base name is `"valor fob"` or `"frete internacional"`, and never when it
is `"valor cif"`; the field contributes the (possibly converted) base
value times the rate. -/
theorem c1_percentage_base_currency_conversion (conf : RuleDict)
    (base_values : List (String × ℚ)) (taxa_cambio occupancy_fraction : ℚ)
    (hp : conf.type?.getD "fixed" = "percentage")
    (hocc : conf.rate_by_occupancy?.getD false = false) :
    fieldCost base_values taxa_cambio occupancy_fraction (.dict conf) =
      (if pyLower (pyStrip (conf.base?.getD "")) = "valor fob"
          ∨ pyLower (pyStrip (conf.base?.getD "")) = "frete internacional"
        then lookupQ base_values (conf.base?.getD "") * taxa_cambio
        else lookupQ base_values (conf.base?.getD "")) * conf.rate?.getD 0
    ∧ (pyLower (pyStrip (conf.base?.getD "")) = "valor cif" →
        fieldCost base_values taxa_cambio occupancy_fraction (.dict conf) =
          lookupQ base_values (conf.base?.getD "") * conf.rate?.getD 0) := by
  constructor
  · simp [fieldCost, hp, hocc]
  · intro hcif
    simp [fieldCost, hp, hocc, hcif]

/-- C1 witness: a `10%`-of-`"Valor FOB"` rule at exchange rate 5 with
`Valor FOB = 200` contributes `200 × 5 × 0.10 = 100`. -/
theorem c1_percentage_base_currency_conversion_witness :
    ((⟨some "percentage", none, some "Valor FOB", some (1 / 10), some false⟩ :
        RuleDict).type?.getD "fixed" = "percentage")
    ∧ ((⟨some "percentage", none, some "Valor FOB", some (1 / 10), some false⟩ :
        RuleDict).rate_by_occupancy?.getD false = false)
    ∧ fieldCost [("Valor FOB", 200)] 5 7
        (.dict ⟨some "percentage", none, some "Valor FOB", some (1 / 10), some false⟩)
        = 100 := by
  refine ⟨rfl, rfl, ?_⟩
  have h := c1_percentage_base_currency_conversion
    ⟨some "percentage", none, some "Valor FOB", some (1 / 10), some false⟩
    [("Valor FOB", 200)] 5 7 rfl rfl
  rw [h.1]
  simp +decide [lookupQ]
  norm_num

/-- C2: the CIF computation yields insurance `0.0015 × fob × rate` exactly
and `cif = (fob + freight × pct/100) × rate + insurance`; both are `0`
when `fob = freight = 0`. -/
theorem c2_cif_insurance_formula (fob frete pct taxa : ℚ)
    (hfob : 0 ≤ fob) (hfrete : 0 ≤ frete) (htaxa : 0 ≤ taxa)
    (hpct0 : 0 ≤ pct) (hpct1 : pct ≤ 100) :
    (valor_cif_calc fob frete pct taxa).1 = 15 / 10000 * (fob * taxa)
    ∧ (valor_cif_calc fob frete pct taxa).2 =
        (fob + frete * (pct / 100)) * taxa + 15 / 10000 * (fob * taxa)
    ∧ (fob = 0 → frete = 0 →
        (valor_cif_calc fob frete pct taxa).1 = 0
          ∧ (valor_cif_calc fob frete pct taxa).2 = 0) := by
  refine ⟨rfl, rfl, ?_⟩
  rintro rfl rfl
  simp [valor_cif_calc]

/-- C2 witness: `fob = 1000`, `freight = 200`, occupancy `100%`, rate `5`
give insurance `7.5` and CIF `6007.5` (the worked example of the spec). -/
theorem c2_cif_insurance_formula_witness :
    (0 : ℚ) ≤ 1000 ∧ (0 : ℚ) ≤ 200 ∧ (0 : ℚ) ≤ 5
    ∧ (0 : ℚ) ≤ 100 ∧ (100 : ℚ) ≤ 100
    ∧ (valor_cif_calc 1000 200 100 5).1 = 15 / 2
    ∧ (valor_cif_calc 1000 200 100 5).2 = 12015 / 2 := by
  have h := c2_cif_insurance_formula 1000 200 100 5 (by norm_num) (by norm_num)
    (by norm_num) (by norm_num) (by norm_num)
  refine ⟨by norm_num, by norm_num, by norm_num, by norm_num, by norm_num, ?_, ?_⟩
  · rw [h.1]
    norm_num
  · rw [h.2.1]
    norm_num

/-- C3: `calculate_total_cost_extended` returns `baseValues["Valor CIF"]`
plus the sum of the per-field contributions; a bare-number rule
contributes the number itself for every occupancy fraction, while a
structured rule with `rate_by_occupancy` set has its computed value
multiplied by the occupancy fraction. -/
theorem c3_total_is_cif_plus_contributions (config : List (String × FieldConf))
    (base_values : List (String × ℚ)) (taxa occ : ℚ) :
    calculate_total_cost_extended config base_values taxa occ =
      lookupQ base_values "Valor CIF"
        + (config.map (fun p => fieldCost base_values taxa occ p.2)).sum
    ∧ (∀ v occ2 : ℚ, fieldCost base_values taxa occ2 (.bare v) = v)
    ∧ (∀ conf : RuleDict, conf.rate_by_occupancy?.getD false = true →
        fieldCost base_values taxa occ (.dict conf) =
          fieldCost base_values taxa 1 (.dict conf) * occ) := by
  refine ⟨?_, fun v occ2 => rfl, fun conf hocc => ?_⟩
  · simp [calculate_total_cost_extended, foldl_add_map]
  · simp [fieldCost, hocc]

/-- C3 witness: a bare field `3` and a prorated fixed field `4` at
occupancy `1/2` with `Valor CIF = 10` give `10 + 3 + 2 = 15`; the bare
field ignores the occupancy fraction and the prorated one scales by it. -/
theorem c3_total_is_cif_plus_contributions_witness :
    calculate_total_cost_extended
        [("a", .bare 3), ("b", .dict ⟨some "fixed", some 4, none, none, some true⟩)]
        [("Valor CIF", 10)] 2 (1 / 2) = 15
    ∧ fieldCost [("Valor CIF", 10)] 2 (1 / 2) (.bare 3) = 3
    ∧ fieldCost [("Valor CIF", 10)] 2 (1 / 2)
        (.dict ⟨some "fixed", some 4, none, none, some true⟩) =
      fieldCost [("Valor CIF", 10)] 2 1
        (.dict ⟨some "fixed", some 4, none, none, some true⟩) * (1 / 2) := by
  have h := c3_total_is_cif_plus_contributions
    [("a", .bare 3), ("b", .dict ⟨some "fixed", some 4, none, none, some true⟩)]
    [("Valor CIF", 10)] 2 (1 / 2)
  refine ⟨?_, h.2.1 3 (1 / 2), h.2.2 _ rfl⟩
  rw [h.1]
  simp +decide [fieldCost, lookupQ]
  norm_num

/-- C4: each of the four product taxes is `baseValues[rule.base] × rate`
with no exchange-rate conversion (the result does not depend on
`taxa_cambio` or `occupancy_fraction` at all); an absent rule contributes
`0`, and with no product selected the total added to a scenario is `0`. -/
theorem c4_product_taxes_independent (p : Product) (bv : List (String × ℚ))
    (taxa occ : ℚ) :
    (∀ ti : TaxInfo, taxAmount bv (some ti) =
        lookupQ bv (ti.base?.getD "") * ti.rate?.getD 0)
    ∧ taxAmount bv none = 0
    ∧ (∀ taxa2 occ2 : ℚ, calculate_product_taxes p bv taxa occ =
        calculate_product_taxes p bv taxa2 occ2)
    ∧ total_product_taxes none bv taxa occ = 0 :=
  ⟨fun _ => rfl, rfl, fun _ _ => rfl, rfl⟩

/-- C5: no entry of the collected ranking rows has a name that
lowercases to `"teste"`: such scenarios are always skipped, whatever
their configuration. -/
theorem c5_teste_never_ranked (data : List (String × List (String × FieldConf)))
    (bv : List (String × ℚ)) (taxa occ fr tt : ℚ) (p : String × ℚ)
    (hp : p ∈ costsOf data bv taxa occ fr tt) :
    pyLower p.1 ≠ "teste" := by
  rcases List.mem_filterMap.mp hp with ⟨a, _, ha⟩
  by_cases ht : pyLower a.1 = "teste"
  · simp [ht] at ha
  · by_cases hv : tem_valor bv taxa a.2
    · simp [ht, hv] at ha
      subst ha
      exact ht
    · simp [ht, hv] at ha

/-- C5 witness: scenario `"A"` with one configured bare field is ranked,
and its name does not lowercase to `"teste"`. -/
theorem c5_teste_never_ranked_witness :
    ("A", (5 : ℚ)) ∈ costsOf [("A", [("f", FieldConf.bare 5)])] [] 1 1 0 0
    ∧ pyLower "A" ≠ "teste" := by
  have hmem : ("A", (5 : ℚ)) ∈ costsOf [("A", [("f", FieldConf.bare 5)])] [] 1 1 0 0 := by
    simp +decide [costsOf, tem_valor, calculate_total_cost_extended, fieldCost, lookupQ]
  exact ⟨hmem, c5_teste_never_ranked _ _ _ _ _ _ _ hmem⟩

/-- C7 counterexample: at occupancy fraction `0`, scenario `"S"` with a
single fixed prorated field of `100` is kept in the ranking (it appears in
the collected rows) even though its only field's evaluated contribution is
`0`, which is non-positive — refuting the claim that a scenario is
included exactly when some field's evaluated contribution is positive. -/
theorem c7_skip_rule_counterexample :
    costsOf [("S", [("f", FieldConf.dict
        ⟨some "fixed", some 100, none, none, some true⟩)])] [] 5 0 0 0 = [("S", 0)]
    ∧ fieldCost [] 5 0
        (FieldConf.dict ⟨some "fixed", some 100, none, none, some true⟩) = 0 := by
  constructor
  · simp +decide [costsOf, tem_valor, calculate_total_cost_extended, fieldCost, lookupQ]
  · norm_num [fieldCost]

/-- C7 (amended): a non-`teste` scenario is included in the ranking
exactly when some field's contribution evaluated at occupancy fraction `1`
(i.e. ignoring the occupancy proration) is positive. -/
theorem c7_skip_iff_no_positive_unprorated (bv : List (String × ℚ))
    (taxa occ fr tt : ℚ) (s : String) (cfg : List (String × FieldConf))
    (hn : pyLower s ≠ "teste") :
    costsOf [(s, cfg)] bv taxa occ fr tt ≠ [] ↔
      ∃ p ∈ cfg, 0 < fieldCost bv taxa 1 p.2 := by
  rw [← tem_valor_iff bv taxa cfg]
  simp only [costsOf, List.filterMap]
  rw [if_neg hn]
  by_cases hv : tem_valor bv taxa cfg
  · simp [hv]
  · simp [hv]

/-- C7 witness: scenario `"S"` with a bare field `5` is included, and
indeed has a field with positive unprorated contribution. -/
theorem c7_skip_iff_no_positive_unprorated_witness :
    pyLower "S" ≠ "teste"
    ∧ (costsOf [("S", [("f", FieldConf.bare 5)])] [] 1 1 0 0 ≠ [] ↔
        ∃ p ∈ [("f", FieldConf.bare 5)], 0 < fieldCost [] 1 1 p.2) :=
  ⟨by decide, c7_skip_iff_no_positive_unprorated [] 1 1 0 0 "S" _ (by decide)⟩

/-- C8: `load_data` propagates a JSON parse failure (the claim that it
returns an empty map on unparseable content is violated), while the
sibling loader `load_products` returns an empty map in every failure
state, as do both loaders on a missing file. -/
theorem c8_load_data_raises_on_malformed :
    load_data FileState.malformed = Except.error "JSONDecodeError"
    ∧ load_data FileState.missing = Except.ok []
    ∧ load_products FileState.malformed = Except.ok []
    ∧ load_products FileState.blank = Except.ok []
    ∧ load_products FileState.missing = Except.ok [] :=
  ⟨rfl, rfl, rfl, rfl, rfl⟩

/-- C9: `format_brl` is total; on a numeric value it returns exactly the
spec's BRL rendering (two decimals, `.` thousands separator, `,` decimal
separator), and on a non-numeric value it returns the input unchanged. -/
theorem c9_format_brl_renders_or_passthrough :
    (∀ q : ℚ, format_brl (PyVal.num q) = PyVal.str (String.mk (brlRender q)))
    ∧ (∀ s : String, format_brl (PyVal.str s) = PyVal.str s) := by
  constructor
  · intro q
    rw [format_brl, format_brl_body, chain_renders]
  · intro s
    rfl

/-- C10: the v2/QAS `calculate_total_cost` adds ICMS of `0.18 × CIF`
exactly when the scenario name contains the case-sensitive substring
`"DI"` or `"DDC"` (and `0` otherwise), returns the ICMS amount as the
second component, and the total as the sum of CIF, the seven fixed cost
fields, and the ICMS. -/
theorem c10_icms_name_rule (data : List (String × ℚ)) (scenario : String) :
    (calculate_total_cost data scenario).2 =
      (if containsSub "DI".toList scenario.toList
          || containsSub "DDC".toList scenario.toList
        then 18 / 100 * lookupQ data "Valor CIF" else 0)
    ∧ (calculate_total_cost data scenario).1 =
        lookupQ data "Valor CIF" + lookupQ data "Frete rodoviário"
          + lookupQ data "Armazenagem" + lookupQ data "Taxa MAPA"
          + lookupQ data "Taxas Porto Seco" + lookupQ data "Desova EAD"
          + lookupQ data "Taxa cross docking" + lookupQ data "Taxa DDC"
          + (calculate_total_cost data scenario).2
    ∧ (calculate_total_cost [("Valor CIF", 100)] "DI Contêiner - Santos").2 = 18
    ∧ (calculate_total_cost [("Valor CIF", 100)] "di contêiner - santos").2 = 0 := by
  refine ⟨?_, rfl, ?_, ?_⟩
  · simp only [calculate_total_cost]
    split <;> ring
  · simp +decide [calculate_total_cost, lookupQ, containsSub, startsWith]
    norm_num
  · simp +decide [calculate_total_cost, lookupQ, containsSub, startsWith]

end ImportScenario
